import Mathlib

/-!
Verification of the diff-collection / payload-assembly logic of the AI
pull-request review bot.

The repository holds two variants of the same script:
* `src/scripts/ai_review.js` — GitHub-Actions `github-script` variant: lists
  changed files through the GitHub API, renders one block per file with a
  per-file patch limit, joins the blocks, truncates the join to 12000
  characters, asks the completion API for a review and posts it as a comment.
* `src/unnamed/part_000` — standalone variant: builds one raw `git diff`
  blob, truncates it to 12000 characters and posts the review.

JavaScript strings are sequences of UTF-16 code units; we model them with
Lean `String` (a list of `Char`).  All string contents handled by the
claims are in the basic plane, where one JS code unit corresponds to one
`Char`, so `slice`, `length` and `includes` agree with the models below.
-/

/-- Model of `text.slice(0, n)` on a JS string, for a non-negative bound. -/
def jsSlice (s : String) (n : Nat) : String :=
  ⟨s.data.take n⟩

/-- Model of JS truthiness testing `!v` on a nullable string: `null`,
`undefined` and the empty string are falsy. -/
def jsFalsy : Option String → Bool
  | none => true
  | some s => s == ""

/-- Model of `pat.isPrefixOf`-based search: `haystack.includes(pat)`. -/
def listInfixOf [BEq α] : List α → List α → Bool
  | pat, [] => pat.isEmpty
  | pat, a :: rest => pat.isPrefixOf (a :: rest) || listInfixOf pat rest

/-- Model of `s.includes(pat)` on JS strings. -/
def jsIncludes (s pat : String) : Bool :=
  listInfixOf pat.data s.data

/-- Characters removed by `String.prototype.trim` (the ASCII portion; every
string the scripts build is ASCII-plus-BMP text where this is exact). -/
def jsWhitespaceChar (c : Char) : Bool :=
  c == ' ' || c == '\t' || c == '\n' || c == '\r' || c == '\x0b' || c == '\x0c'

/-- Model of `s.trim()`: strip leading and trailing whitespace. -/
def jsTrim (s : String) : String :=
  ⟨(((s.data.dropWhile jsWhitespaceChar).reverse.dropWhile jsWhitespaceChar).reverse)⟩

/-- A changed-file record as returned by the GitHub `pulls.listFiles`
endpoint: `patch` is absent for binary or oversized files. -/
structure ChangedFile where
  filename : String
  status : String
  patch : Option String
deriving DecidableEq

/-- Model of one HTTP response as the scripts observe it: the `ok` flag and
`status` of the fetch, the text body (read on failure), and the review text
the script extracts from the JSON body on success (`none` when the JSON
carries no usable content). -/
structure HttpResponse where
  ok : Bool
  status : Nat
  bodyText : String
  content : Option String
deriving DecidableEq

/-- External calls the scripts make after the diff is assembled: the
completion-API fetch (ReviewClient) and the issue-comment post
(CommentPublisher). -/
inductive ExtCall where
  | openAIFetch
  | createComment (body : String)
deriving DecidableEq

namespace AiReview

/-! Shallow embedding of `src/scripts/ai_review.js` (first document). -/

/-- `truncate(text, max)`: `if (!text) return ""; if (text.length <= max)
return text; return text.slice(0, max) + "\n\n... (diff truncado)";`.
The source declares `max = 12000` as a default; every call site below passes
it explicitly. -/
def truncate (text : Option String) (max : Nat) : String :=
  match text with
  | none => ""
  | some t =>
    if t = "" then ""
    else if t.length ≤ max then t
    else jsSlice t max ++ "\n\n... (diff truncado)"

/-- `const maxFiles = 15;` -/
def maxFiles : Nat := 15

/-- `const maxPatchCharsPerFile = 5000;` -/
def maxPatchCharsPerFile : Nat := 5000

/-- `f.patch` used as a filter predicate: truthy iff present and non-empty. -/
def hasPatch (f : ChangedFile) : Bool :=
  !(jsFalsy f.patch)

/-- The per-file patch rendering: `f.patch.length > maxPatchCharsPerFile ?
f.patch.slice(0, maxPatchCharsPerFile) + "\n... (patch truncado)\n" :
f.patch`, with the limit abstracted as a parameter. -/
def renderPatchBody (mPatch : Nat) (p : String) : String :=
  if p.length > mPatch then jsSlice p mPatch ++ "\n... (patch truncado)\n"
  else p

/-- One rendered block:
`` `FILE: ${f.filename}\nSTATUS: ${f.status}\nPATCH:\n${patch}\n` ``. -/
def renderFileBlockWith (mPatch : Nat) (f : ChangedFile) : String :=
  "FILE: " ++ f.filename ++ "\nSTATUS: " ++ f.status ++ "\nPATCH:\n" ++
    renderPatchBody mPatch (f.patch.getD "") ++ "\n"

/-- `files.filter((f) => f.patch).slice(0, maxFiles)`. -/
def selectedOf (mFiles : Nat) (files : List ChangedFile) : List ChangedFile :=
  (files.filter hasPatch).take mFiles

/-- `selected.map((f) => ...).join("\n---\n")`: the joined text before the
final total-size cut. -/
def joinedPatches (mFiles mPatch : Nat) (files : List ChangedFile) : String :=
  String.intercalate "\n---\n" ((selectedOf mFiles files).map (renderFileBlockWith mPatch))

/-- The pure payload assembly performed by `getPullRequestDiff` once the
file list is in hand, with the three limits abstracted as parameters:
select, render, join with `"\n---\n"`, and truncate the join. -/
def assembleWith (mFiles mPatch mTotal : Nat) (files : List ChangedFile) :
    Option String :=
  let selected := selectedOf mFiles files
  if selected.length = 0 then none
  else
    let patches := joinedPatches mFiles mPatch files
    if jsTrim patches = "" then none
    else some (truncate (some patches) mTotal)

/-- The assembly with the source's constants: `maxFiles = 15`,
`maxPatchCharsPerFile = 5000`, final `truncate(patches, 12000)`. -/
def assembleFiles (files : List ChangedFile) : Option String :=
  assembleWith maxFiles maxPatchCharsPerFile 12000 files

/-- `context.payload.pull_request` as the script reads it. -/
structure PullRequest where
  number : Nat
  draft : Bool
deriving DecidableEq

/-- `context.repo`: both coordinates may be absent or empty. -/
structure RepoId where
  owner : Option String
  repo : Option String
deriving DecidableEq

/-- The `context` object handed to the script by `actions/github-script`. -/
structure Context where
  pull_request : Option PullRequest
  repo : Option RepoId
deriving DecidableEq

/-- `ensureRepoContext(context)`: throws when `context.repo`, its `owner` or
its `repo` is missing/falsy. -/
def ensureRepoContext (ctx : Context) : Except String Unit :=
  match ctx.repo with
  | none => .error "context.repo está indefinido (owner/repo não encontrados)."
  | some r =>
    if jsFalsy r.owner || jsFalsy r.repo then
      .error "context.repo está indefinido (owner/repo não encontrados)."
    else .ok ()

/-- `getPullRequestDiff({ github, context, core })`: `null` when there is no
pull request in the context or the pull request is a draft; otherwise
validates the repo context and assembles the payload from the paginated
file list (the list the API returns is the `files` argument). -/
def getPullRequestDiff (ctx : Context) (files : List ChangedFile) :
    Except String (Option String) :=
  match ctx.pull_request with
  | none => .ok none
  | some pr =>
    if pr.draft then .ok none
    else
      match ensureRepoContext ctx with
      | .error e => .error e
      | .ok _ => .ok (assembleFiles files)

/-- `data?.choices?.[0]?.message?.content?.trim() || "Não foi possível gerar
a revisão."`. -/
def extractReview (content : Option String) : String :=
  match content with
  | none => "Não foi possível gerar a revisão."
  | some c => if jsTrim c = "" then "Não foi possível gerar a revisão." else jsTrim c

/-- The warning appended to the comment when the assembled diff contains the
total-truncation marker: `diffText.includes("... (diff truncado)") ? ... : ""`. -/
def truncatedNote (diffText : String) : String :=
  if jsIncludes diffText "... (diff truncado)" then
    "\n\n⚠️ O diff analisado foi truncado (máx. 12000 caracteres)."
  else ""

/-- The posted comment body template of `main`. -/
def buildComment (review diffText : String) : String :=
  "## 🤖 AI Code TRADIO Review\n\n" ++ review ++ "\n" ++ truncatedNote diffText ++
    "\n\n---\n\n_Obs: revisão automática baseada no diff do PR (pode estar truncado)._"

/-- Outcome of one `main` invocation under `github-script`: a `setFailed`
run fails the job; returning normally succeeds (either having skipped or
having posted the comment). -/
inductive MainResult where
  | skipped
  | posted
  | failedRun (msg : String)
deriving DecidableEq

/-- `main({ github, context, core })` of `ai_review.js`, with the two
network responses supplied as inputs, together with the trace of external
calls issued (completion fetch, comment post).  `requiredEnv` rejects a
missing or empty `OPENAI_API_KEY` before the fetch is attempted; a non-`ok`
completion response throws before the comment post is attempted; any thrown
error is caught and turned into `core.setFailed`. -/
def mainRun (ctx : Context) (files : List ChangedFile) (apiKey : Option String)
    (resp : HttpResponse) : MainResult × List ExtCall :=
  match ensureRepoContext ctx with
  | .error e => (.failedRun e, [])
  | .ok _ =>
    match getPullRequestDiff ctx files with
    | .error e => (.failedRun e, [])
    | .ok none => (.skipped, [])
    | .ok (some diffText) =>
      if diffText = "" then (.skipped, [])
      else if jsFalsy apiKey then
        (.failedRun "Missing required env: OPENAI_API_KEY", [])
      else if !resp.ok then
        (.failedRun ("OpenAI API error (" ++ toString resp.status ++ "): " ++ resp.bodyText),
          [.openAIFetch])
      else
        let comment := buildComment (extractReview resp.content) diffText
        (.posted, [.openAIFetch, .createComment comment])

/-- Modelled from the spec: the source keeps no truncation bookkeeping
structure; the spec's `TruncationReport` (§3) is missing from the code, so
its fields are derived here from the very selection and truncation steps the
source performs. -/
structure TruncationReport where
  filesLimited : Bool
  patchTruncatedCount : Nat
  totalTruncated : Bool
  filesWithPatchCount : Nat
  selectedCount : Nat
deriving DecidableEq

/-- Modelled from the spec: the `TruncationReport` for one assembly, as
§4.2 step 6 describes it, computed from the source's own limits and steps. -/
def buildReport (files : List ChangedFile) : TruncationReport :=
  { filesLimited := decide (maxFiles < (files.filter hasPatch).length)
    patchTruncatedCount := (selectedOf maxFiles files).countP
      (fun f => decide (maxPatchCharsPerFile < (f.patch.getD "").length))
    totalTruncated := decide (12000 < (joinedPatches maxFiles maxPatchCharsPerFile files).length)
    filesWithPatchCount := (files.filter hasPatch).length
    selectedCount := (selectedOf maxFiles files).length }

end AiReview

namespace Part000

/-! Shallow embedding of `src/unnamed/part_000`, the standalone variant. -/

/-- The environment variables the script requires. -/
structure Env where
  OPENAI_API_KEY : Option String
  GITHUB_TOKEN : Option String
  GITHUB_REPOSITORY : Option String
  GITHUB_EVENT_PATH : Option String
deriving DecidableEq

/-- The pull-request portion of the event JSON that the script reads.  The
event document also carries a draft flag, which this variant never reads. -/
structure Event where
  prNumber : Option Nat
  baseRef : String
  headSha : String
  draft : Bool
deriving DecidableEq

/-- `const MAX_CHARS = 12000;` -/
def MAX_CHARS : Nat := 12000

/-- `if (diffText.length > MAX_CHARS) diffText = diffText.slice(0,
MAX_CHARS) + "\n\n[Diff truncated]\n";`. -/
def truncateDiff (diffText : String) : String :=
  if diffText.length > MAX_CHARS then jsSlice diffText MAX_CHARS ++ "\n\n[Diff truncated]\n"
  else diffText

/-- The review-comment text `callOpenAI` returns: header plus extracted
text, cut to 65000 characters.  When no `output_text` is present the script
falls back to the serialized response JSON, which we model by the response's
body text. -/
def reviewText (resp : HttpResponse) : String :=
  jsSlice ("## 🤖 AI Code Review\n\n" ++ resp.content.getD resp.bodyText) 65000

/-- The whole `main()` of `part_000` with its external effects as inputs:
`gitDiff` is the blob produced by the `git diff` subprocess, `aiResp` and
`ghResp` the two HTTP responses.  The result is the `Except` the promise
settles with (`.error` is caught by `main().catch`, which prints and calls
`process.exit(1)`), paired with the trace of external calls issued. -/
def mainRun (env : Env) (event : Event) (gitDiff : String)
    (aiResp ghResp : HttpResponse) : Except String Unit × List ExtCall :=
  if jsFalsy env.OPENAI_API_KEY then (.error "Missing OPENAI_API_KEY secret", [])
  else if jsFalsy env.GITHUB_TOKEN then (.error "Missing GITHUB_TOKEN", [])
  else if jsFalsy env.GITHUB_REPOSITORY then (.error "Missing GITHUB_REPOSITORY", [])
  else if jsFalsy env.GITHUB_EVENT_PATH then (.error "Missing GITHUB_EVENT_PATH", [])
  else
    match event.prNumber with
    | none => (.error "This workflow must run on pull_request events (no PR found).", [])
    | some n =>
      if n = 0 then (.error "This workflow must run on pull_request events (no PR found).", [])
      else
        let _diffText := truncateDiff gitDiff
        if !aiResp.ok then
          (.error ("OpenAI API error (" ++ toString aiResp.status ++ "): " ++ aiResp.bodyText),
            [.openAIFetch])
        else
          let review := reviewText aiResp
          if !ghResp.ok then
            (.error ("GitHub comment error (" ++ toString ghResp.status ++ "): " ++ ghResp.bodyText),
              [.openAIFetch, .createComment review])
          else (.ok (), [.openAIFetch, .createComment review])

/-- `main().catch((err) => { console.error(...); process.exit(1); })`:
exit code of the process for a settled run. -/
def exitCode (r : Except String Unit × List ExtCall) : Nat :=
  match r.1 with
  | .ok _ => 0
  | .error _ => 1

end Part000

/-! ### Concrete fixtures used by the claim theorems -/

/-- The input refuting C1 as stated: one eligible file whose 13000-character
filename makes the joined text 13033 characters long, so the final
truncation engages. -/
def c1File : ChangedFile :=
  ⟨String.mk (List.replicate 13000 'a'), "modified", some "p"⟩

/-- The input refuting C2 as stated: 20 patch-bearing files whose filenames,
statuses and patch bodies contain no digit characters at all. -/
def c2Files : List ChangedFile := List.replicate 20 ⟨"a", "modified", some "p"⟩

/-- A successful HTTP response fixture. -/
def okResp : HttpResponse := ⟨true, 200, "", some "LGTM"⟩

/-- A fully populated environment for the standalone variant. -/
def env0 : Part000.Env := ⟨some "sk", some "tok", some "owner/repo", some "/github/event.json"⟩

/-- An event document with no pull-request payload. -/
def eventNoPR : Part000.Event := ⟨none, "main", "abc123", false⟩

/-- An event document for a draft pull request. -/
def eventDraft : Part000.Event := ⟨some 7, "main", "abc123", true⟩

/-- A context with a valid repo but no pull request. -/
def ctxNoPR : AiReview.Context := ⟨none, some ⟨some "owner", some "repo"⟩⟩

/-- A context whose pull request is a draft. -/
def ctxDraft : AiReview.Context := ⟨some ⟨7, true⟩, some ⟨some "owner", some "repo"⟩⟩

/-- A context with a regular (non-draft) pull request. -/
def ctxPR : AiReview.Context := ⟨some ⟨7, false⟩, some ⟨some "owner", some "repo"⟩⟩

/-- A file whose own small patch contains the total-truncation marker text. -/
def c9MarkFile : ChangedFile := ⟨"a", "modified", some "x ... (diff truncado) y"⟩

/-- A file whose 5001-character patch engages only the per-file truncation. -/
def c9BigFile : ChangedFile := ⟨"a", "modified", some (String.mk (List.replicate 5001 'a'))⟩

/-- The payload the assembler produces for `[c9BigFile]`: per-file marker
present, no total truncation. -/
def c9BigPayload : String :=
  "FILE: " ++ "a" ++ "\nSTATUS: " ++ "modified" ++ "\nPATCH:\n"
    ++ (String.mk (List.replicate 5000 'a') ++ "\n... (patch truncado)\n") ++ "\n"

/-! ### Helper lemmas about the JS string primitives -/

theorem jsSlice_length (s : String) (n : Nat) : (jsSlice s n).length = min n s.length :=
  List.length_take n s.data

theorem string_ne_empty_of_length_pos {s : String} (h : 0 < s.length) : s ≠ "" := by
  intro he
  rw [he] at h
  exact Nat.lt_irrefl 0 h

theorem mem_data_append_left {c : Char} {a : String} (b : String) (h : c ∈ a.data) :
    c ∈ (a ++ b).data := by
  rw [String.data_append]
  exact List.mem_append_left _ h

theorem jsTrim_ne_empty {s : String} {c : Char} (hc : c ∈ s.data)
    (hw : jsWhitespaceChar c = false) : jsTrim s ≠ "" := by
  intro h
  have hdata :
      (((s.data.dropWhile jsWhitespaceChar).reverse.dropWhile jsWhitespaceChar).reverse)
        = ([] : List Char) := congrArg String.data h
  rw [List.reverse_eq_nil_iff, List.dropWhile_eq_nil_iff] at hdata
  have hcd : c ∈ s.data.dropWhile jsWhitespaceChar := by
    have hsplit := List.takeWhile_append_dropWhile jsWhitespaceChar s.data
    rw [← hsplit] at hc
    rcases List.mem_append.mp hc with h1 | h2
    · have := List.mem_takeWhile_imp h1
      rw [hw] at this
      exact absurd this Bool.false_ne_true
    · exact h2
  have := hdata c (List.mem_reverse.mpr hcd)
  rw [hw] at this
  exact Bool.false_ne_true this

theorem listInfixOf_iff {α} [BEq α] [LawfulBEq α] (pat l : List α) :
    listInfixOf pat l = true ↔ pat <:+: l := by
  induction l with
  | nil => simp [listInfixOf, List.isEmpty_iff, List.infix_nil]
  | cons a rest ih =>
    simp [listInfixOf, Bool.or_eq_true, List.isPrefixOf_iff_prefix, ih,
      List.infix_cons_iff]

theorem mem_intercalate_go {c : Char} (s : String) (bs : List String) :
    ∀ acc : String, c ∈ acc.data → c ∈ (String.intercalate.go acc s bs).data := by
  induction bs with
  | nil => intro acc h; exact h
  | cons b bs ih =>
    intro acc h
    exact ih (acc ++ s ++ b) (mem_data_append_left b (mem_data_append_left s h))

theorem mem_intercalate_head {c : Char} (sep b : String) (bs : List String)
    (h : c ∈ b.data) : c ∈ (String.intercalate sep (b :: bs)).data :=
  mem_intercalate_go sep bs b h

/-! ### Helper lemmas about `truncate` -/

theorem truncate_of_le {t : String} {mx : Nat} (ht : t ≠ "") (h : t.length ≤ mx) :
    AiReview.truncate (some t) mx = t := by
  show (if t = "" then "" else if t.length ≤ mx then t
      else jsSlice t mx ++ "\n\n... (diff truncado)") = t
  rw [if_neg ht, if_pos h]

theorem truncate_of_gt {t : String} {mx : Nat} (h : mx < t.length) :
    AiReview.truncate (some t) mx = jsSlice t mx ++ "\n\n... (diff truncado)" := by
  have ht : t ≠ "" := by
    intro he
    rw [he] at h
    exact Nat.not_lt_zero mx h
  show (if t = "" then "" else if t.length ≤ mx then t
      else jsSlice t mx ++ "\n\n... (diff truncado)") = _
  rw [if_neg ht, if_neg (by omega)]

theorem totalMarker_length : ("\n\n... (diff truncado)" : String).length = 21 := rfl

theorem truncate_length_of_gt {t : String} {mx : Nat} (h : mx < t.length) :
    (AiReview.truncate (some t) mx).length = mx + 21 := by
  rw [truncate_of_gt h, String.length_append, jsSlice_length,
    Nat.min_eq_left (Nat.le_of_lt h), totalMarker_length]

theorem truncate_length_le (t : String) (mx : Nat) :
    (AiReview.truncate (some t) mx).length ≤ mx + 21 := by
  by_cases ht : t = ""
  · subst ht
    simp [AiReview.truncate]
  · by_cases hl : t.length ≤ mx
    · rw [truncate_of_le ht hl]
      omega
    · rw [truncate_length_of_gt (Nat.not_le.mp hl)]

/-! ### Claim theorems -/

/-- C10: `truncate` is total over absent and empty inputs: for every `max`,
applying it to `null`/`undefined` (modelled by `none`) or to the empty
string returns the empty string. -/
theorem c10_truncate_total (mx : Nat) :
    AiReview.truncate none mx = "" ∧ AiReview.truncate (some "") mx = "" := by
  constructor
  · rfl
  · show (if ("" : String) = "" then "" else if ("" : String).length ≤ mx then ""
        else jsSlice "" mx ++ "\n\n... (diff truncado)") = ""
    rw [if_pos rfl]

/-- C8: the payload assembly is a pure, deterministic function of the
`ChangedFile` sequence and the three limits: two calls on identical inputs
produce identical output.  (The embedding itself witnesses purity: the
source function reads nothing beyond its arguments and module constants.) -/
theorem c8_determinism (mFiles mPatch mTotal : Nat)
    (files₁ files₂ : List ChangedFile) (h : files₁ = files₂) :
    AiReview.assembleWith mFiles mPatch mTotal files₁ =
      AiReview.assembleWith mFiles mPatch mTotal files₂ := by
  rw [h]

theorem c8_determinism_witness :
    AiReview.assembleWith 15 5000 12000 [⟨"a", "modified", some "p"⟩] =
      AiReview.assembleWith 15 5000 12000 [⟨"a", "modified", some "p"⟩] :=
  c8_determinism 15 5000 12000 _ _ rfl

/-- C5: for every `ChangedFile` sequence with `N` patch-bearing files, the
number of rendered file blocks is `min N maxFiles`, and the selection is the
first-`maxFiles` prefix of the patch-bearing files in source order (filter
then take, no re-sorting). -/
theorem c5_selection_count (files : List ChangedFile) :
    ((AiReview.selectedOf AiReview.maxFiles files).map
        (AiReview.renderFileBlockWith AiReview.maxPatchCharsPerFile)).length
      = min (files.filter AiReview.hasPatch).length AiReview.maxFiles
    ∧ AiReview.selectedOf AiReview.maxFiles files <+: files.filter AiReview.hasPatch
    ∧ AiReview.selectedOf AiReview.maxFiles files
        = (files.filter AiReview.hasPatch).take AiReview.maxFiles := by
  refine ⟨?_, List.take_prefix _ _, rfl⟩
  rw [List.length_map, AiReview.selectedOf, List.length_take, Nat.min_comm]

/-- C4: a selected file's rendered patch body is the patch verbatim when its
length is at most `maxPatchCharsPerFile` — in particular at exactly the
boundary, where the spec-modelled `patchTruncatedCount` stays 0 — and is
exactly the first `maxPatchCharsPerFile` characters followed by the fixed
marker when the length exceeds the limit. -/
theorem c4_per_file_truncation (p : String) :
    (p.length ≤ AiReview.maxPatchCharsPerFile →
      AiReview.renderPatchBody AiReview.maxPatchCharsPerFile p = p)
    ∧ (p.length = AiReview.maxPatchCharsPerFile →
        AiReview.renderPatchBody AiReview.maxPatchCharsPerFile p = p ∧
        (AiReview.buildReport [⟨"exact.txt", "modified", some p⟩]).patchTruncatedCount = 0)
    ∧ (AiReview.maxPatchCharsPerFile < p.length →
        AiReview.renderPatchBody AiReview.maxPatchCharsPerFile p
            = jsSlice p AiReview.maxPatchCharsPerFile ++ "\n... (patch truncado)\n"
          ∧ (jsSlice p AiReview.maxPatchCharsPerFile).length = AiReview.maxPatchCharsPerFile
          ∧ (AiReview.buildReport [⟨"big.txt", "modified", some p⟩]).patchTruncatedCount = 1) := by
  have hbody_le : p.length ≤ AiReview.maxPatchCharsPerFile →
      AiReview.renderPatchBody AiReview.maxPatchCharsPerFile p = p := by
    intro h
    rw [AiReview.renderPatchBody, if_neg (by omega)]
  have hcount : ∀ (nm st : String), p ≠ "" →
      (AiReview.buildReport [⟨nm, st, some p⟩]).patchTruncatedCount
        = if AiReview.maxPatchCharsPerFile < p.length then 1 else 0 := by
    intro nm st hp
    have hpatch : AiReview.hasPatch ⟨nm, st, some p⟩ = true := by
      have : (p == "") = false := beq_eq_false_iff_ne.mpr hp
      simp [AiReview.hasPatch, jsFalsy, this]
    show List.countP _ (AiReview.selectedOf AiReview.maxFiles [⟨nm, st, some p⟩]) = _
    rw [AiReview.selectedOf, List.filter_cons_of_pos hpatch, List.filter_nil]
    show List.countP _ [(⟨nm, st, some p⟩ : ChangedFile)] = _
    rw [List.countP_cons, List.countP_nil]
    show (0 + if (decide (AiReview.maxPatchCharsPerFile < p.length)) = true then 1 else 0) = _
    by_cases hlt : AiReview.maxPatchCharsPerFile < p.length
    · rw [if_pos hlt, if_pos (by rw [decide_eq_true hlt])]
    · rw [if_neg hlt, if_neg (by rw [decide_eq_false hlt]; exact Bool.false_ne_true)]
  refine ⟨hbody_le, fun h => ⟨hbody_le (Nat.le_of_eq h), ?_⟩, fun h => ⟨?_, ?_, ?_⟩⟩
  · rw [hcount "exact.txt" "modified"
      (string_ne_empty_of_length_pos (by rw [h]; exact Nat.succ_pos _)),
      if_neg (by omega)]
  · rw [AiReview.renderPatchBody, if_pos (by omega)]
  · rw [jsSlice_length, Nat.min_eq_left (Nat.le_of_lt h)]
  · rw [hcount "big.txt" "modified"
      (string_ne_empty_of_length_pos (Nat.lt_of_le_of_lt (Nat.zero_le _) h)),
      if_pos h]

theorem c4_per_file_truncation_witness :
    AiReview.renderPatchBody AiReview.maxPatchCharsPerFile
        (String.mk (List.replicate 5000 'x')) = String.mk (List.replicate 5000 'x')
    ∧ (AiReview.buildReport
        [⟨"exact.txt", "modified", some (String.mk (List.replicate 5000 'x'))⟩]).patchTruncatedCount = 0
    ∧ AiReview.renderPatchBody AiReview.maxPatchCharsPerFile
        (String.mk (List.replicate 5001 'x'))
        = jsSlice (String.mk (List.replicate 5001 'x')) AiReview.maxPatchCharsPerFile
            ++ "\n... (patch truncado)\n" :=
  ⟨((c4_per_file_truncation (String.mk (List.replicate 5000 'x'))).2.1
      (show (String.mk (List.replicate 5000 'x')).length = AiReview.maxPatchCharsPerFile from
        List.length_replicate 5000 'x')).1,
   ((c4_per_file_truncation (String.mk (List.replicate 5000 'x'))).2.1
      (show (String.mk (List.replicate 5000 'x')).length = AiReview.maxPatchCharsPerFile from
        List.length_replicate 5000 'x')).2,
   ((c4_per_file_truncation (String.mk (List.replicate 5001 'x'))).2.2 (by
      rw [show (String.mk (List.replicate 5001 'x')).length = 5001 from
        List.length_replicate 5001 'x']
      exact Nat.lt_succ_self 5000)).1⟩

/-! ### Helper lemmas about the assembly -/

theorem selectedOf_single {f : ChangedFile} (h : AiReview.hasPatch f = true) :
    AiReview.selectedOf AiReview.maxFiles [f] = [f] := by
  rw [AiReview.selectedOf, List.filter_cons_of_pos h, List.filter_nil]
  rfl

theorem mem_renderFileBlockWith (mPatch : Nat) (f : ChangedFile) :
    ('F' : Char) ∈ (AiReview.renderFileBlockWith mPatch f).data :=
  mem_data_append_left _ (mem_data_append_left _ (mem_data_append_left _
    (mem_data_append_left _ (mem_data_append_left _ (mem_data_append_left _ (by decide))))))

theorem assembleWith_eq_some {mFiles mPatch mTotal : Nat} {files : List ChangedFile}
    (hne : AiReview.selectedOf mFiles files ≠ []) :
    AiReview.assembleWith mFiles mPatch mTotal files
      = some (AiReview.truncate
          (some (AiReview.joinedPatches mFiles mPatch files)) mTotal) := by
  obtain ⟨f, fs, hsel⟩ := List.exists_cons_of_ne_nil hne
  have hF : ('F' : Char) ∈ (AiReview.joinedPatches mFiles mPatch files).data := by
    rw [AiReview.joinedPatches, hsel, List.map_cons]
    exact mem_intercalate_head _ _ _ (mem_renderFileBlockWith mPatch f)
  have hlen : (AiReview.selectedOf mFiles files).length ≠ 0 := by
    rw [hsel]
    exact Nat.succ_ne_zero _
  show (if (AiReview.selectedOf mFiles files).length = 0 then none
      else if jsTrim (AiReview.joinedPatches mFiles mPatch files) = "" then none
      else some (AiReview.truncate
          (some (AiReview.joinedPatches mFiles mPatch files)) mTotal)) = _
  rw [if_neg hlen, if_neg (jsTrim_ne_empty hF (by decide))]

/-- C1 amended: the assembled payload length is bounded by `maxTotalChars`
plus the truncation marker's 21 characters, because the source appends the
marker after slicing to `maxTotalChars` instead of inside the budget. -/
theorem c1_cap_amended (files : List ChangedFile) (s : String)
    (h : AiReview.assembleFiles files = some s) : s.length ≤ 12000 + 21 := by
  simp only [AiReview.assembleFiles, AiReview.assembleWith] at h
  by_cases h0 : (AiReview.selectedOf AiReview.maxFiles files).length = 0
  · rw [if_pos h0] at h
    exact absurd h (by simp)
  · rw [if_neg h0] at h
    by_cases h1 : jsTrim (AiReview.joinedPatches AiReview.maxFiles
        AiReview.maxPatchCharsPerFile files) = ""
    · rw [if_pos h1] at h
      exact absurd h (by simp)
    · rw [if_neg h1] at h
      injection h with h
      rw [← h]
      exact truncate_length_le _ _

theorem c1_cap_amended_witness :
    ("FILE: a\nSTATUS: modified\nPATCH:\np\n" : String).length ≤ 12000 + 21 :=
  c1_cap_amended [⟨"a", "modified", some "p"⟩] _ (by decide)

/-- C1 counterexample: on `[c1File]` the assembled payload is 12021
characters long — the 12000-character slice plus the 21-character marker —
so the claimed hard cap `length ≤ maxTotalChars = 12000` is violated. -/
theorem c1_cap_counterexample :
    (AiReview.assembleFiles [c1File]).map String.length = some 12021
      ∧ ¬ (12021 ≤ 12000) := by
  have hpatch : AiReview.hasPatch c1File = true := by decide
  have hsel : AiReview.selectedOf AiReview.maxFiles [c1File] = [c1File] :=
    selectedOf_single hpatch
  have hblock : AiReview.renderFileBlockWith AiReview.maxPatchCharsPerFile c1File
      = "FILE: " ++ String.mk (List.replicate 13000 'a') ++ "\nSTATUS: " ++ "modified"
        ++ "\nPATCH:\n" ++ "p" ++ "\n" := by
    rw [AiReview.renderFileBlockWith, AiReview.renderPatchBody, if_neg (by decide)]
    rfl
  have hjoin : AiReview.joinedPatches AiReview.maxFiles AiReview.maxPatchCharsPerFile [c1File]
      = "FILE: " ++ String.mk (List.replicate 13000 'a') ++ "\nSTATUS: " ++ "modified"
        ++ "\nPATCH:\n" ++ "p" ++ "\n" := by
    rw [AiReview.joinedPatches, hsel, List.map_cons, List.map_nil]
    rw [show ∀ b : String, String.intercalate "\n---\n" [b] = b from fun _ => rfl]
    exact hblock
  have hlen : (AiReview.joinedPatches AiReview.maxFiles
      AiReview.maxPatchCharsPerFile [c1File]).length = 13033 := by
    rw [hjoin, String.length_append, String.length_append, String.length_append,
      String.length_append, String.length_append, String.length_append,
      show (String.mk (List.replicate 13000 'a')).length = 13000 from
        List.length_replicate 13000 'a']
    decide
  have hasm := @assembleWith_eq_some AiReview.maxFiles AiReview.maxPatchCharsPerFile
    12000 [c1File] (by rw [hsel]; exact List.cons_ne_nil _ _)
  rw [AiReview.assembleFiles, hasm]
  refine ⟨?_, by decide⟩
  show some ((AiReview.truncate (some (AiReview.joinedPatches AiReview.maxFiles
      AiReview.maxPatchCharsPerFile [c1File])) 12000).length) = some 12021
  rw [truncate_length_of_gt (by rw [hlen]; decide)]

/-- C2 amended: when more patch-bearing files exist than `maxFiles`, exactly
`maxFiles` files are selected (`selectedCount = maxFiles`,
`filesLimited = true` in the spec-modelled report), but the source appends
no explanatory trailing line about the omitted files: the payload is just
the truncated join of the selected blocks. -/
theorem c2_omitted_note_amended (files : List ChangedFile)
    (h : AiReview.maxFiles < (files.filter AiReview.hasPatch).length) :
    (AiReview.buildReport files).filesLimited = true
    ∧ (AiReview.buildReport files).selectedCount = AiReview.maxFiles
    ∧ AiReview.assembleFiles files
        = some (AiReview.truncate
            (some (AiReview.joinedPatches AiReview.maxFiles
              AiReview.maxPatchCharsPerFile files)) 12000) := by
  have hsellen : (AiReview.selectedOf AiReview.maxFiles files).length = AiReview.maxFiles := by
    rw [AiReview.selectedOf, List.length_take, Nat.min_eq_left (Nat.le_of_lt h)]
  refine ⟨decide_eq_true h, hsellen, ?_⟩
  exact assembleWith_eq_some (by
    intro hnil
    rw [hnil] at hsellen
    exact absurd hsellen (by decide))

theorem c2_omitted_note_amended_witness :
    (AiReview.buildReport (List.replicate 20 ⟨"a", "modified", some "p"⟩)).filesLimited = true
    ∧ (AiReview.buildReport (List.replicate 20 ⟨"a", "modified", some "p"⟩)).selectedCount
        = AiReview.maxFiles
    ∧ AiReview.assembleFiles (List.replicate 20 ⟨"a", "modified", some "p"⟩)
        = some (AiReview.truncate
            (some (AiReview.joinedPatches AiReview.maxFiles AiReview.maxPatchCharsPerFile
              (List.replicate 20 ⟨"a", "modified", some "p"⟩))) 12000) :=
  c2_omitted_note_amended (List.replicate 20 ⟨"a", "modified", some "p"⟩) (by decide)

set_option maxRecDepth 100000 in
/-- C2 counterexample: on 20 digit-free patch-bearing files the assembled
payload contains no digit character whatsoever, so it cannot end with a
trailing line "stating the number of omitted files" (which would have to
mention 20 or 5); the claimed explanatory line is absent. -/
theorem c2_omitted_note_counterexample :
    (AiReview.assembleFiles c2Files).isSome = true
    ∧ ((AiReview.assembleFiles c2Files).getD "").data.all (fun c => !c.isDigit) = true
    ∧ (AiReview.buildReport c2Files).filesLimited = true := by
  refine ⟨by decide, by decide, by decide⟩

/-- C3 counterexample: in the standalone variant a run with no pull-request
context does not exit successfully — `main` throws
"This workflow must run on pull_request events (no PR found)." and the
process exits with code 1. -/
theorem c3_noop_counterexample :
    Part000.exitCode (Part000.mainRun env0 eventNoPR "some diff" okResp okResp) = 1
    ∧ (Part000.mainRun env0 eventNoPR "some diff" okResp okResp).1
        = Except.error "This workflow must run on pull_request events (no PR found)." := by
  exact ⟨rfl, rfl⟩

/-- C3 amended: in the `github-script` variant (`ai_review.js`) a missing
pull-request context or a draft pull request yields the empty result and a
successful skip with no external calls; but in the standalone variant
(`part_000`) a missing pull-request context throws and the process exits
with code 1, and draft pull requests are not skipped — the review proceeds
and the comment is posted. -/
theorem c3_noop_amended (ctx : AiReview.Context) (files : List ChangedFile)
    (key : Option String) (resp : HttpResponse)
    (hrepo : AiReview.ensureRepoContext ctx = Except.ok ()) :
    (ctx.pull_request = none →
        AiReview.mainRun ctx files key resp = (AiReview.MainResult.skipped, []))
    ∧ (∀ pr, ctx.pull_request = some pr → pr.draft = true →
        AiReview.mainRun ctx files key resp = (AiReview.MainResult.skipped, []))
    ∧ (∀ (env : Part000.Env) (event : Part000.Event) (gitDiff : String)
          (aiResp ghResp : HttpResponse),
        jsFalsy env.OPENAI_API_KEY = false → jsFalsy env.GITHUB_TOKEN = false →
        jsFalsy env.GITHUB_REPOSITORY = false → jsFalsy env.GITHUB_EVENT_PATH = false →
        event.prNumber = none →
        Part000.mainRun env event gitDiff aiResp ghResp
            = (Except.error "This workflow must run on pull_request events (no PR found).", [])
          ∧ Part000.exitCode (Part000.mainRun env event gitDiff aiResp ghResp) = 1)
    ∧ (∀ (env : Part000.Env) (event : Part000.Event) (gitDiff : String)
          (aiResp ghResp : HttpResponse) (n : Nat),
        jsFalsy env.OPENAI_API_KEY = false → jsFalsy env.GITHUB_TOKEN = false →
        jsFalsy env.GITHUB_REPOSITORY = false → jsFalsy env.GITHUB_EVENT_PATH = false →
        event.prNumber = some n → n ≠ 0 → event.draft = true →
        aiResp.ok = true → ghResp.ok = true →
        Part000.mainRun env event gitDiff aiResp ghResp
          = (Except.ok (), [ExtCall.openAIFetch,
              ExtCall.createComment (Part000.reviewText aiResp)])) := by
  refine ⟨?_, ?_, ?_, ?_⟩
  · intro hnone
    simp only [AiReview.mainRun, AiReview.getPullRequestDiff, hrepo, hnone]
  · intro pr hpr hdraft
    simp only [AiReview.mainRun, AiReview.getPullRequestDiff, hrepo, hpr, hdraft, if_true]
  · intro env event gitDiff aiResp ghResp h1 h2 h3 h4 hnone
    refine ⟨?_, ?_⟩ <;>
      simp only [Part000.mainRun, Part000.exitCode, h1, h2, h3, h4, hnone,
        Bool.false_eq_true, if_false]
  · intro env event gitDiff aiResp ghResp n h1 h2 h3 h4 hn hn0 hdraft hok hgok
    simp only [Part000.mainRun, h1, h2, h3, h4, hn, hn0, hok, hgok,
      Bool.false_eq_true, if_false, Bool.not_true, if_neg hn0]

theorem c3_noop_amended_witness :
    AiReview.mainRun ctxNoPR [] (some "k") okResp = (AiReview.MainResult.skipped, [])
    ∧ AiReview.mainRun ctxDraft [] (some "k") okResp = (AiReview.MainResult.skipped, [])
    ∧ Part000.exitCode (Part000.mainRun env0 eventNoPR "d" okResp okResp) = 1
    ∧ Part000.mainRun env0 eventDraft "d" okResp okResp
        = (Except.ok (), [ExtCall.openAIFetch,
            ExtCall.createComment (Part000.reviewText okResp)]) :=
  ⟨(c3_noop_amended ctxNoPR [] (some "k") okResp rfl).1 rfl,
   (c3_noop_amended ctxDraft [] (some "k") okResp rfl).2.1 ⟨7, true⟩ rfl rfl,
   ((c3_noop_amended ctxNoPR [] (some "k") okResp rfl).2.2.1 env0 eventNoPR "d"
      okResp okResp (by decide) (by decide) (by decide) (by decide) rfl).2,
   (c3_noop_amended ctxNoPR [] (some "k") okResp rfl).2.2.2 env0 eventDraft "d"
      okResp okResp 7 (by decide) (by decide) (by decide) (by decide) rfl (by decide)
      rfl rfl rfl⟩

/-- C6: with zero patch-bearing files the assembler returns the
nothing-to-review sentinel `null`, and `main` (with a valid repo context)
returns successfully with an empty external-call trace: neither the
completion API nor the comment API is ever invoked. -/
theorem c6_empty_input_skip (files : List ChangedFile) (ctx : AiReview.Context)
    (key : Option String) (resp : HttpResponse)
    (hfilt : files.filter AiReview.hasPatch = [])
    (hrepo : AiReview.ensureRepoContext ctx = Except.ok ()) :
    AiReview.assembleFiles files = none
    ∧ AiReview.mainRun ctx files key resp = (AiReview.MainResult.skipped, []) := by
  have hasm : AiReview.assembleFiles files = none := by
    simp only [AiReview.assembleFiles, AiReview.assembleWith, AiReview.selectedOf, hfilt]
    rfl
  refine ⟨hasm, ?_⟩
  match hpr : ctx.pull_request with
  | none =>
    simp only [AiReview.mainRun, AiReview.getPullRequestDiff, hrepo, hpr]
  | some pr =>
    by_cases hd : pr.draft = true
    · simp only [AiReview.mainRun, AiReview.getPullRequestDiff, hrepo, hpr, hd, if_true]
    · simp only [AiReview.mainRun, AiReview.getPullRequestDiff, hrepo, hpr,
        if_neg hd, hasm]

theorem c6_empty_input_skip_witness :
    AiReview.assembleFiles [⟨"img.png", "added", none⟩] = none
    ∧ AiReview.mainRun ctxPR [⟨"img.png", "added", none⟩] (some "k") okResp
        = (AiReview.MainResult.skipped, []) :=
  c6_empty_input_skip [⟨"img.png", "added", none⟩] ctxPR (some "k") okResp
    (by decide) rfl

/-- C7: when the completion API responds with a non-success status, both
variants abort the run with a fatal error whose message embeds the numeric
status and the response body text, and the external-call trace shows that no
comment post is ever attempted. -/
theorem c7_upstream_failure (ctx : AiReview.Context) (files : List ChangedFile)
    (key : Option String) (resp : HttpResponse) (pr : AiReview.PullRequest) (d : String)
    (hrepo : AiReview.ensureRepoContext ctx = Except.ok ())
    (hpr : ctx.pull_request = some pr) (hdraft : pr.draft = false)
    (hasm : AiReview.assembleFiles files = some d) (hd : d ≠ "")
    (hkey : jsFalsy key = false) (hfail : resp.ok = false) :
    AiReview.mainRun ctx files key resp
        = (AiReview.MainResult.failedRun
            ("OpenAI API error (" ++ toString resp.status ++ "): " ++ resp.bodyText),
          [ExtCall.openAIFetch])
    ∧ jsIncludes ("OpenAI API error (" ++ toString resp.status ++ "): " ++ resp.bodyText)
        (toString resp.status) = true
    ∧ jsIncludes ("OpenAI API error (" ++ toString resp.status ++ "): " ++ resp.bodyText)
        resp.bodyText = true
    ∧ (∀ b : String,
        ExtCall.createComment b ∉ (AiReview.mainRun ctx files key resp).2)
    ∧ (∀ (env : Part000.Env) (event : Part000.Event) (gitDiff : String)
          (ghResp : HttpResponse) (n : Nat),
        jsFalsy env.OPENAI_API_KEY = false → jsFalsy env.GITHUB_TOKEN = false →
        jsFalsy env.GITHUB_REPOSITORY = false → jsFalsy env.GITHUB_EVENT_PATH = false →
        event.prNumber = some n → n ≠ 0 →
        Part000.mainRun env event gitDiff resp ghResp
          = (Except.error
              ("OpenAI API error (" ++ toString resp.status ++ "): " ++ resp.bodyText),
            [ExtCall.openAIFetch])) := by
  have hmain : AiReview.mainRun ctx files key resp
      = (AiReview.MainResult.failedRun
          ("OpenAI API error (" ++ toString resp.status ++ "): " ++ resp.bodyText),
        [ExtCall.openAIFetch]) := by
    simp only [AiReview.mainRun, AiReview.getPullRequestDiff, hrepo, hpr, hdraft,
      Bool.false_eq_true, if_false, hasm, if_neg hd, hkey, hfail, Bool.not_false, if_true]
  refine ⟨hmain, ?_, ?_, ?_, ?_⟩
  · rw [jsIncludes]
    apply (listInfixOf_iff _ _).mpr
    have hassoc : ("OpenAI API error (" ++ toString resp.status ++ "): "
          ++ resp.bodyText).data
        = ("OpenAI API error (" : String).data ++ (toString resp.status).data
          ++ (("): " : String).data ++ resp.bodyText.data) := by
      simp only [String.data_append, List.append_assoc]
    rw [hassoc]
    exact List.infix_append _ _ _
  · rw [jsIncludes]
    apply (listInfixOf_iff _ _).mpr
    have hassoc : ("OpenAI API error (" ++ toString resp.status ++ "): "
          ++ resp.bodyText).data
        = ("OpenAI API error (" ++ toString resp.status ++ "): ").data
          ++ resp.bodyText.data := by
      simp only [String.data_append]
    rw [hassoc]
    exact (List.suffix_append _ _).isInfix
  · intro b
    rw [hmain]
    intro hmem
    rcases List.mem_singleton.mp hmem with h
    exact ExtCall.noConfusion h
  · intro env event gitDiff ghResp n h1 h2 h3 h4 hn hn0
    simp only [Part000.mainRun, h1, h2, h3, h4, hn, Bool.false_eq_true, if_false,
      if_neg hn0, hfail, Bool.not_false, if_true]

theorem c7_upstream_failure_witness :
    AiReview.mainRun ctxPR [⟨"a", "modified", some "p"⟩] (some "k") ⟨false, 500, "boom", none⟩
        = (AiReview.MainResult.failedRun
            ("OpenAI API error (" ++ toString (500 : Nat) ++ "): " ++ "boom"),
          [ExtCall.openAIFetch])
    ∧ Part000.mainRun env0 ⟨some 7, "main", "abc123", false⟩ "d" ⟨false, 500, "boom", none⟩ okResp
        = (Except.error ("OpenAI API error (" ++ toString (500 : Nat) ++ "): " ++ "boom"),
          [ExtCall.openAIFetch]) :=
  ⟨(c7_upstream_failure ctxPR [⟨"a", "modified", some "p"⟩] (some "k")
      ⟨false, 500, "boom", none⟩ ⟨7, false⟩ "FILE: a\nSTATUS: modified\nPATCH:\np\n"
      rfl rfl rfl (by decide) (by decide) (by decide) rfl).1,
   (c7_upstream_failure ctxPR [⟨"a", "modified", some "p"⟩] (some "k")
      ⟨false, 500, "boom", none⟩ ⟨7, false⟩ "FILE: a\nSTATUS: modified\nPATCH:\np\n"
      rfl rfl rfl (by decide) (by decide) (by decide) rfl).2.2.2.2
      env0 ⟨some 7, "main", "abc123", false⟩ "d" okResp 7 (by decide) (by decide)
      (by decide) (by decide) rfl (by decide)⟩


theorem buildReport_patchTruncatedCount (files : List ChangedFile) :
    (AiReview.buildReport files).patchTruncatedCount
      = List.countP (fun f => decide (AiReview.maxPatchCharsPerFile < (f.patch.getD "").length))
          (AiReview.selectedOf AiReview.maxFiles files) := rfl

set_option maxRecDepth 100000 in
/-- C9: the comment's total-truncation warning appears iff the assembled
payload contains the substring `"... (diff truncado)"`; a patch that itself
contains that substring triggers the warning although no total truncation
occurred; and per-file truncation alone (marker `"... (patch truncado)"`)
never triggers it. -/
theorem c9_warning_iff_marker :
    (∀ d : String, AiReview.truncatedNote d ≠ ""
        ↔ jsIncludes d "... (diff truncado)" = true)
    ∧ ((AiReview.assembleFiles [c9MarkFile]).isSome = true
        ∧ ((AiReview.assembleFiles [c9MarkFile]).getD "").length ≤ 12000
        ∧ (AiReview.buildReport [c9MarkFile]).totalTruncated = false
        ∧ AiReview.truncatedNote ((AiReview.assembleFiles [c9MarkFile]).getD "") ≠ "")
    ∧ (AiReview.assembleFiles [c9BigFile] = some c9BigPayload
        ∧ (AiReview.buildReport [c9BigFile]).patchTruncatedCount = 1
        ∧ AiReview.truncatedNote c9BigPayload = "") := by
  have hiff : ∀ d : String, AiReview.truncatedNote d ≠ ""
      ↔ jsIncludes d "... (diff truncado)" = true := by
    intro d
    by_cases hI : jsIncludes d "... (diff truncado)" = true
    · rw [AiReview.truncatedNote, if_pos hI]
      exact ⟨fun _ => hI, fun _ => by decide⟩
    · rw [AiReview.truncatedNote, if_neg hI]
      exact ⟨fun hne => absurd rfl hne, fun htrue => absurd htrue hI⟩
  have hpatch : AiReview.hasPatch c9BigFile = true := by decide
  have hsel : AiReview.selectedOf AiReview.maxFiles [c9BigFile] = [c9BigFile] :=
    selectedOf_single hpatch
  have hgt : (c9BigFile.patch.getD "").length > AiReview.maxPatchCharsPerFile := by
    show 5000 < (String.mk (List.replicate 5001 'a')).length
    rw [show (String.mk (List.replicate 5001 'a')).length = 5001 from
      List.length_replicate 5001 'a']
    decide
  have hslice : jsSlice (String.mk (List.replicate 5001 'a')) AiReview.maxPatchCharsPerFile
      = String.mk (List.replicate 5000 'a') := by
    rw [jsSlice]
    show String.mk (List.take 5000 (List.replicate 5001 'a')) = _
    rw [List.take_replicate, Nat.min_eq_left (by decide)]
  have hblock : AiReview.renderFileBlockWith AiReview.maxPatchCharsPerFile c9BigFile
      = c9BigPayload := by
    rw [AiReview.renderFileBlockWith, AiReview.renderPatchBody, if_pos hgt]
    show "FILE: " ++ c9BigFile.filename ++ "\nSTATUS: " ++ c9BigFile.status ++ "\nPATCH:\n"
        ++ (jsSlice (String.mk (List.replicate 5001 'a')) AiReview.maxPatchCharsPerFile
            ++ "\n... (patch truncado)\n") ++ "\n" = c9BigPayload
    rw [hslice]
    rfl
  have hjoin : AiReview.joinedPatches AiReview.maxFiles AiReview.maxPatchCharsPerFile
      [c9BigFile] = c9BigPayload := by
    rw [AiReview.joinedPatches, hsel, List.map_cons, List.map_nil,
      show ∀ b : String, String.intercalate "\n---\n" [b] = b from fun _ => rfl]
    exact hblock
  have hpayeq : c9BigPayload = "FILE: " ++ "a" ++ "\nSTATUS: " ++ "modified" ++ "\nPATCH:\n"
      ++ (String.mk (List.replicate 5000 'a') ++ "\n... (patch truncado)\n") ++ "\n" := rfl
  have hpaylen : c9BigPayload.length = 5055 := by
    rw [hpayeq, String.length_append, String.length_append, String.length_append,
      String.length_append, String.length_append, String.length_append,
      String.length_append,
      show (String.mk (List.replicate 5000 'a')).length = 5000 from
        List.length_replicate 5000 'a']
    decide
  have hasm : AiReview.assembleFiles [c9BigFile] = some c9BigPayload := by
    rw [AiReview.assembleFiles,
      assembleWith_eq_some (by rw [hsel]; exact List.cons_ne_nil _ _), hjoin,
      truncate_of_le (string_ne_empty_of_length_pos (by rw [hpaylen]; decide))
        (by rw [hpaylen]; decide)]
  have hcnt : List.count 'f' c9BigPayload.data = 1 := by
    rw [hpayeq]
    simp only [String.data_append]
    simp only [List.count_append]
    rw [List.count_replicate, if_neg (by decide)]
    decide
  have hninc : jsIncludes c9BigPayload "... (diff truncado)" = false := by
    rw [jsIncludes]
    cases h : listInfixOf (("... (diff truncado)" : String).data) c9BigPayload.data
    · rfl
    · exfalso
      have hinf := (listInfixOf_iff _ _).mp h
      have hle := hinf.sublist.count_le 'f'
      rw [hcnt] at hle
      rw [show List.count 'f' ("... (diff truncado)" : String).data = 2 from by decide] at hle
      exact absurd hle (by decide)
  have hcount1 : (AiReview.buildReport [c9BigFile]).patchTruncatedCount = 1 := by
    rw [buildReport_patchTruncatedCount, hsel, List.countP_cons, List.countP_nil,
      if_pos (decide_eq_true hgt)]
  refine ⟨hiff, ⟨by decide, by decide, by decide, by decide⟩,
    hasm, hcount1, ?_⟩
  rw [AiReview.truncatedNote, if_neg (by rw [hninc]; exact Bool.false_ne_true)]
